import Mathlib

/-!
Verification development for the shy001012 utility-panel repository.

The repository has two source files:
- netlify/functions/convert.js : a serverless HTTP handler that parses a
  multipart POST body and echoes the uploaded file bytes back under a new
  filename extension.
- src/components/ToolsApp.tsx : a React component holding an in-memory list
  of uploaded-file records, with upload, rename, copy, move, delete
  operations, a document-conversion request, and a client-side image
  compression loop.

This file gives a shallow embedding of both and proves or refutes the
specification claims about them.
-/

/-! ## Part 1: the serverless conversion endpoint (netlify/functions/convert.js)

A parsed multipart body part (named MPart since Part is taken by the ambient library), as produced by the parse-multipart-data
library: a part name and the raw bytes of its data. -/

structure MPart where
  name : String
  data : List Nat
deriving DecidableEq

/-- Bytewise decoding of a data buffer to a string, modelling the
JavaScript Buffer toString call. JavaScript decodes UTF-8; this model maps
each byte to the character of its code point, which agrees with UTF-8 on
ASCII bytes. The theorems below depend only on ASCII data and on whether
the buffer is empty. -/
def bytesToString (bs : List Nat) : String :=
  String.mk (bs.map Char.ofNat)

/-- The body of an HTTP response from the handler: either a JSON error
object (serialized as the error-message string) or raw file bytes. In the
source the byte body is base64-encoded with isBase64Encoded set, so on the
wire the recipient receives exactly these raw bytes. -/
inductive RespBody where
  | jsonError (msg : String)
  | bytes (data : List Nat)
deriving DecidableEq

/-- An HTTP response from the handler. Headers are a name-value list;
the non-200 responses of the source carry no headers. -/
structure Response where
  statusCode : Nat
  headers : List (String × String)
  body : RespBody
  isBase64Encoded : Bool
deriving DecidableEq

/-- The conversion endpoint handler, from netlify/functions/convert.js.

Inputs: the HTTP method of the event; the result of the multipart parsing
phase (boundary extraction from the content-type header plus
multipart.parse), where none models that phase throwing, which the
try/catch of the source turns into a 500 response; and the value of the
Date.now() call used to build the output filename.

The source checks the method, finds the first part named file and the
first part named targetFormat (decoded to a string), returns 400 when the
file part is absent or the decoded targetFormat string is falsy (absent
part or empty string), and otherwise returns 200 with the file bytes,
an application/octet-stream content type, and an attachment filename
built from Date.now() and the target format. -/
def handler (httpMethod : String) (parseResult : Option (List MPart))
    (now : Nat) : Response :=
  if httpMethod ≠ "POST" then
    { statusCode := 405, headers := [],
      body := .jsonError "Method not allowed", isBase64Encoded := false }
  else
    match parseResult with
    | none =>
      { statusCode := 500, headers := [],
        body := .jsonError "转换失败", isBase64Encoded := false }
    | some parts =>
      let file := parts.find? (fun p => p.name == "file")
      let targetFormat :=
        (parts.find? (fun p => p.name == "targetFormat")).map
          (fun p => bytesToString p.data)
      match file, targetFormat with
      | some f, some tf =>
        if tf = "" then
          { statusCode := 400, headers := [],
            body := .jsonError "缺少文件或目标格式", isBase64Encoded := false }
        else
          let fileName := "converted-" ++ toString now ++ "." ++ tf
          { statusCode := 200,
            headers :=
              [("Content-Type", "application/octet-stream"),
               ("Content-Disposition",
                "attachment; filename=\"" ++ fileName ++ "\"")],
            body := .bytes f.data, isBase64Encoded := true }
      | _, _ =>
        { statusCode := 400, headers := [],
          body := .jsonError "缺少文件或目标格式", isBase64Encoded := false }

/-! ## Part 2: the ToolsApp component state (src/components/ToolsApp.tsx) -/

/-- A browser File object as handed to handleFileUpload: its name, byte
size and MIME type, plus an opaque reference standing for the underlying
binary payload. -/
structure UploadFile where
  name : String
  size : Nat
  type : String
  payload : Nat
deriving DecidableEq

/-- The FileItem interface of ToolsApp.tsx: one record of the in-memory
file list. The file field holds the opaque payload reference of the
underlying File object. -/
structure FileItem where
  id : Nat
  name : String
  size : Nat
  type : String
  file : Nat
  status : String
deriving DecidableEq

/-- The component state touched by the file operations: the files list,
the selected ids, the transient status message, and the loading flag. -/
structure AppState where
  files : List FileItem
  selectedFiles : List Nat
  message : String
  loading : Bool
deriving DecidableEq

/-- The initial component state: useState gives an empty list, an empty
selection, an empty message, and loading false. -/
def initialState : AppState :=
  { files := [], selectedFiles := [], message := "", loading := false }

/-- handleFileUpload from ToolsApp.tsx. A null FileList (modelled as none)
returns without change; otherwise each uploaded file becomes a record with
id Date.now() + index, the name, size and type of the file, the file
payload itself, and status ready, and the new records are appended after
the existing list. The now argument is the value of the Date.now() call. -/
def handleFileUpload (uploaded : Option (List UploadFile)) (now : Nat)
    (s : AppState) : AppState :=
  match uploaded with
  | none => s
  | some ufs =>
    let newFiles := ufs.mapIdx (fun index (f : UploadFile) =>
      { id := now + index, name := f.name, size := f.size, type := f.type,
        file := f.payload, status := "ready" : FileItem })
    { s with files := s.files ++ newFiles }

/-- The JavaScript String split with a one-character separator, over the
character list of the string: splitting the empty string gives one empty
group, and every separator occurrence ends a group. -/
def jsSplit (sep : Char) : List Char → List (List Char)
  | [] => [[]]
  | c :: cs =>
    match jsSplit sep cs with
    | [] => [[]]
    | g :: gs => if c = sep then [] :: g :: gs else (c :: g) :: gs

/-- The extension computation of the rename branch:
name.split(dot).pop(), i.e. the last dot-separated component of the name.
For a name without a dot this is the whole name. -/
def lastDotComponent (s : String) : String :=
  String.mk ((jsSplit '.' s.data).getLastD [])

/-- handleFileOperation from ToolsApp.tsx. promptResult models the return
of window.prompt (none for cancel), confirmResult the return of
window.confirm. JavaScript truthiness of the prompt result means a
cancelled prompt or an empty string leaves the branch without changes.
Every call ends by clearing the selection (setSelectedFiles([])). -/
def handleFileOperation (operation : String) (fileIds : List Nat)
    (promptResult : Option String) (confirmResult : Bool)
    (s : AppState) : AppState :=
  let s' :=
    match operation with
    | "rename" =>
      match promptResult with
      | some newName =>
        if newName = "" then s
        else
          { s with
            files := s.files.map (fun (f : FileItem) =>
              if fileIds.contains f.id then
                { f with
                  name := newName ++ "-" ++ toString f.id ++ "."
                    ++ lastDotComponent f.name }
              else f),
            message := "已重命名 " ++ toString fileIds.length ++ " 个文件" }
      | none => s
    | "delete" =>
      if confirmResult then
        { s with
          files := s.files.filter (fun f => !(fileIds.contains f.id)),
          selectedFiles := [],
          message := "已删除 " ++ toString fileIds.length ++ " 个文件" }
      else s
    | "copy" =>
      { s with message := "已复制 " ++ toString fileIds.length ++ " 个文件到剪贴板" }
    | "move" =>
      match promptResult with
      | some folder =>
        if folder = "" then s
        else
          { s with
            message := "已将 " ++ toString fileIds.length ++ " 个文件移动到 "
              ++ folder ++ " 文件夹" }
      | none => s
    | _ => s
  { s' with selectedFiles := [] }

/-- One user-driven event on the component state: a file upload (with the
Date.now() value observed by that call) or a file-management operation
(with the prompt and confirm dialog results observed by that call). -/
inductive Event where
  | upload (uploaded : Option (List UploadFile)) (now : Nat)
  | fileOp (operation : String) (fileIds : List Nat)
      (promptResult : Option String) (confirmResult : Bool)
deriving DecidableEq

/-- One step of the component state under an event. -/
def step (s : AppState) (e : Event) : AppState :=
  match e with
  | .upload u now => handleFileUpload u now s
  | .fileOp op ids p c => handleFileOperation op ids p c s

/-- Runs a sequence of events from the initial state. -/
def runTrace (events : List Event) : AppState :=
  events.foldl step initialState

/-- The ids of the records currently in the list. -/
def idsOf (s : AppState) : List Nat :=
  s.files.map (fun f => f.id)


/-! ## Part 3: convertDocument and compressImages (src/components/ToolsApp.tsx) -/

/-- The part of a fetch Response that convertDocument looks at: the ok
flag and the result of the blob() call, which can itself reject. The blob
content is irrelevant to the state, so it is elided. -/
structure ConvResp where
  ok : Bool
  blobResult : Except String Unit

/-- convertDocument from ToolsApp.tsx, as a state transformer. The
fetchResult argument is the outcome of the awaited fetch call: error e
models a rejected fetch (or any exception raised inside the try block
before the response check), carrying the exception message.

The source sets loading true and clears the message, then: on a response
with ok true it downloads the blob and sets the success message (a blob()
rejection is caught like any other error); on ok false it throws an Error
with message 转换失败, which its own catch turns into the message
转换失败: 转换失败; any caught error e yields 转换失败: e. Finally loading
is set false on every path. -/
def convertDocument (fetchResult : Except String ConvResp)
    (s : AppState) : AppState :=
  match fetchResult with
  | .error e => { s with message := "转换失败: " ++ e, loading := false }
  | .ok resp =>
    if resp.ok then
      match resp.blobResult with
      | .ok _ => { s with message := "文档转换成功！", loading := false }
      | .error e => { s with message := "转换失败: " ++ e, loading := false }
    else
      { s with message := "转换失败: " ++ "转换失败", loading := false }

/-- The resize computation inside the img.onload callback of
compressImages, over exact rationals (the source computes with JavaScript
numbers). If either dimension exceeds maxSize = 1920, both dimensions are
multiplied by the ratio min(1920 / width, 1920 / height); otherwise they
are unchanged. -/
def computeNewSize (width height : ℚ) : ℚ × ℚ :=
  let maxSize : ℚ := 1920
  if width > maxSize ∨ height > maxSize then
    let ratio := min (maxSize / width) (maxSize / height)
    (width * ratio, height * ratio)
  else (width, height)

/-- The JavaScript String startsWith test, over character lists: the
first list is the candidate start, tested against the second. -/
def jsStartsWith : List Char → List Char → Bool
  | [], _ => true
  | _ :: _, [] => false
  | p :: ps, c :: cs => p == c && jsStartsWith ps cs

/-- The MIME-type test of the compression loop and of the image list
filters: type.startsWith(image/). -/
def typeIsImage (t : String) : Bool :=
  jsStartsWith "image/".data t.data

/-- The accumulating effect of the compressImages loop body on one list
entry: entries whose type does not start with image/ are skipped by the
continue; for an image entry the original size is added to the first
total, and, if the canvas toBlob callback produced a blob (blobOf gives
its byte size, none models a null blob), its size is added to the second
total and a download named compressed-(name) is triggered. -/
def compressAccum (blobOf : FileItem → Option Nat)
    (acc : Nat × Nat × List String) (image : FileItem) :
    Nat × Nat × List String :=
  if !(typeIsImage image.type) then acc
  else
    let totalOriginal := acc.1 + image.size
    match blobOf image with
    | some bsize =>
      (totalOriginal, acc.2.1 + bsize, acc.2.2 ++ ["compressed-" ++ image.name])
    | none => (totalOriginal, acc.2.1, acc.2.2)

/-- The totals computed by the compressImages loop over the given list:
total original size, total compressed size, and the list of triggered
download filenames, in order. -/
def compressTotals (images : List FileItem)
    (blobOf : FileItem → Option Nat) : Nat × Nat × List String :=
  images.foldl (compressAccum blobOf) (0, 0, [])

/-- formatFileSize from ToolsApp.tsx, modelled over naturals: the source
computes floor(log bytes / log 1024) and bytes / 1024^i with JavaScript
floats and toFixed(2); this model uses the integer logarithm and integer
division, which identifies the same unit and the same integer part. No
theorem below depends on the formatted digits. -/
def formatFileSize (bytes : Nat) : String :=
  if bytes = 0 then "0 Bytes"
  else
    let sizes := ["Bytes", "KB", "MB", "GB"]
    let i := Nat.log 1024 bytes
    toString (bytes / 1024 ^ i) ++ " " ++ sizes.getD i ""

/-- The success message of compressImages, built from the two totals. The
source computes savedBytes = totalOriginal - totalCompressed and a
percentage with float division and toFixed(1); saved bytes are modelled
with truncated subtraction and the percentage in integer tenths. No
theorem below depends on the formatted digits. -/
def compressDoneMessage (totalOriginal totalCompressed : Nat) : String :=
  let savedBytes := totalOriginal - totalCompressed
  let tenths := savedBytes * 1000 / totalOriginal
  "压缩完成！节省了 " ++ formatFileSize savedBytes ++ " ("
    ++ toString (tenths / 10) ++ "." ++ toString (tenths % 10) ++ "%)"

/-- compressImages from ToolsApp.tsx, as a state transformer. blobOf gives
the outcome of the canvas toBlob re-encoding for each image (none for a
null blob); loopError, when some e, models an exception with message e
raised inside the try block, which the catch turns into the message
压缩失败: e. On the error-free path the message is built from the two
totals. Loading is set false on every path. -/
def compressImages (images : List FileItem)
    (blobOf : FileItem → Option Nat) (loopError : Option String)
    (s : AppState) : AppState :=
  match loopError with
  | some e => { s with message := "压缩失败: " ++ e, loading := false }
  | none =>
    let t := compressTotals images blobOf
    { s with message := compressDoneMessage t.1 t.2.1, loading := false }

/-- Fallback record for positional lookups in theorem statements; never an
element of any list a theorem constrains. -/
def dummyFileItem : FileItem :=
  { id := 0, name := "", size := 0, type := "", file := 0, status := "" }

/-- Fallback upload for positional lookups in theorem statements. -/
def dummyUploadFile : UploadFile :=
  { name := "", size := 0, type := "", payload := 0 }

/-- Freshness of one event against a state: an upload event must use a
Date.now() value strictly greater than every id already in the list (the
id range it allocates, now + 0 .. now + N - 1, then starts above all
existing ids). All other events are unconstrained. -/
def eventFresh (s : AppState) : Event → Bool
  | .upload (some _) now => s.files.all (fun f => decide (f.id < now))
  | _ => true

/-- Freshness of a whole event sequence run from state s: every upload in
it is fresh for the state it executes in. -/
def traceFresh (s : AppState) : List Event → Bool
  | [] => true
  | e :: es => eventFresh s e && traceFresh (step s e) es

/-! ## Theorems -/

/-- C1 counterexample: a POST request whose multipart body contains both a
file part and a targetFormat part, where the targetFormat part data is the
empty buffer. Both parts are present, yet the handler returns 400, not
200, because the decoded target-format string is empty and therefore falsy
in the check of line 20 of convert.js. -/
theorem handler_both_parts_not_200 :
    (([⟨"file", [104, 105]⟩, ⟨"targetFormat", []⟩] : List MPart).find?
        (fun p => p.name == "file")).isSome = true ∧
    (([⟨"file", [104, 105]⟩, ⟨"targetFormat", []⟩] : List MPart).find?
        (fun p => p.name == "targetFormat")).isSome = true ∧
    (handler "POST"
        (some [⟨"file", [104, 105]⟩, ⟨"targetFormat", []⟩]) 0).statusCode
      = 400 ∧
    ¬ (handler "POST"
        (some [⟨"file", [104, 105]⟩, ⟨"targetFormat", []⟩]) 0).statusCode
      = 200 := by
  decide

/-- C1 (amended): for every POST request whose multipart body contains a
file part and a targetFormat part whose data decodes to a non-empty
string, the handler returns status 200 with body equal to the uploaded
file bytes (delivered unchanged: the base64 body with isBase64Encoded
decodes to exactly these bytes), Content-Type application/octet-stream,
and a Content-Disposition attachment filename converted-(timestamp) with
the supplied target format as its extension. -/
theorem handler_success_echoes_bytes (parts : List MPart) (now : Nat)
    (fp tp : MPart)
    (hf : parts.find? (fun p => p.name == "file") = some fp)
    (ht : parts.find? (fun p => p.name == "targetFormat") = some tp)
    (hne : bytesToString tp.data ≠ "") :
    handler "POST" (some parts) now =
      { statusCode := 200,
        headers :=
          [("Content-Type", "application/octet-stream"),
           ("Content-Disposition",
            "attachment; filename=\""
              ++ ("converted-" ++ toString now ++ "." ++ bytesToString tp.data)
              ++ "\"")],
        body := .bytes fp.data, isBase64Encoded := true } := by
  unfold handler
  rw [if_neg (by simp)]
  dsimp only
  rw [hf, ht]
  simp [hne]

/-- C1 witness: a concrete request with file bytes [104, 105] and target
format pdf (bytes [112, 100, 102]). -/
theorem handler_success_echoes_bytes_witness :
    ([⟨"file", [104, 105]⟩, ⟨"targetFormat", [112, 100, 102]⟩]
        : List MPart).find? (fun p => p.name == "file")
      = some ⟨"file", [104, 105]⟩ ∧
    ([⟨"file", [104, 105]⟩, ⟨"targetFormat", [112, 100, 102]⟩]
        : List MPart).find? (fun p => p.name == "targetFormat")
      = some ⟨"targetFormat", [112, 100, 102]⟩ ∧
    bytesToString [112, 100, 102] ≠ "" ∧
    handler "POST"
        (some [⟨"file", [104, 105]⟩, ⟨"targetFormat", [112, 100, 102]⟩]) 7
      = { statusCode := 200,
          headers :=
            [("Content-Type", "application/octet-stream"),
             ("Content-Disposition",
              "attachment; filename=\""
                ++ ("converted-" ++ toString 7 ++ "."
                  ++ bytesToString [112, 100, 102])
                ++ "\"")],
          body := .bytes [104, 105], isBase64Encoded := true } :=
  ⟨by decide, by decide, by decide,
    handler_success_echoes_bytes
      [⟨"file", [104, 105]⟩, ⟨"targetFormat", [112, 100, 102]⟩] 7
      ⟨"file", [104, 105]⟩ ⟨"targetFormat", [112, 100, 102]⟩
      rfl rfl (by decide)⟩

/-- C2: a successfully parsed POST request that is missing the file part
or the targetFormat part (or both) gets status 400 with the JSON error
body of line 23 of convert.js. -/
theorem handler_missing_part_400 (parts : List MPart) (now : Nat)
    (h : parts.find? (fun p => p.name == "file") = none ∨
         parts.find? (fun p => p.name == "targetFormat") = none) :
    handler "POST" (some parts) now =
      { statusCode := 400, headers := [],
        body := .jsonError "缺少文件或目标格式", isBase64Encoded := false } := by
  unfold handler
  rw [if_neg (by simp)]
  dsimp only
  rcases h with h | h
  · rw [h]
  · rw [h]
    rcases hf : parts.find? (fun p => p.name == "file") with _ | fp
    · rw [hf]
    · rw [hf]
      rfl

/-- C2 witness: a concrete parsed body holding only a targetFormat part. -/
theorem handler_missing_part_400_witness :
    (([⟨"targetFormat", [112, 100, 102]⟩] : List MPart).find?
        (fun p => p.name == "file") = none ∨
     ([⟨"targetFormat", [112, 100, 102]⟩] : List MPart).find?
        (fun p => p.name == "targetFormat") = none) ∧
    handler "POST" (some [⟨"targetFormat", [112, 100, 102]⟩]) 3
      = { statusCode := 400, headers := [],
          body := .jsonError "缺少文件或目标格式", isBase64Encoded := false } :=
  ⟨by decide, handler_missing_part_400 _ 3 (by decide)⟩

/-- Reduction of the delete branch of handleFileOperation: confirmed
deletion filters out the selected ids, clears the selection and sets the
message; a declined confirm leaves only the final selection clearing. -/
theorem handleFileOperation_delete (fileIds : List Nat) (p : Option String)
    (c : Bool) (s : AppState) :
    handleFileOperation "delete" fileIds p c s =
      if c then
        { s with
          files := s.files.filter (fun f => !(fileIds.contains f.id)),
          selectedFiles := [],
          message := "已删除 " ++ toString fileIds.length ++ " 个文件" }
      else { s with selectedFiles := [] } := by
  cases c <;> rfl

/-- Reduction of the rename branch of handleFileOperation for a non-empty
prompt result. -/
theorem handleFileOperation_rename (fileIds : List Nat) (nm : String)
    (c : Bool) (s : AppState) (hne : nm ≠ "") :
    handleFileOperation "rename" fileIds (some nm) c s =
      { s with
        files := s.files.map (fun f =>
          if fileIds.contains f.id then
            { f with
              name := nm ++ "-" ++ toString f.id ++ "."
                ++ lastDotComponent f.name }
          else f),
        selectedFiles := [],
        message := "已重命名 " ++ toString fileIds.length ++ " 个文件" } := by
  unfold handleFileOperation
  dsimp only
  rw [if_neg hne]
  rfl

/-- C4: a confirmed delete removes exactly the records whose id is
selected: membership in the resulting list is membership in the old list
with an unselected id, and the survivors appear unmodified and in their
original order (the result is a sublist of the old list). -/
theorem delete_removes_exactly_selected (s : AppState) (fileIds : List Nat)
    (p : Option String) :
    (handleFileOperation "delete" fileIds p true s).files.Sublist s.files ∧
    ∀ f : FileItem,
      f ∈ (handleFileOperation "delete" fileIds p true s).files ↔
        f ∈ s.files ∧ f.id ∉ fileIds := by
  rw [handleFileOperation_delete]
  simp only [if_pos rfl]
  refine ⟨List.filter_sublist _, fun f => ?_⟩
  simp [List.mem_filter, List.contains, List.elem_iff]

/-- C4 witness: deleting id 1 from a two-record list keeps exactly the
record with id 2. -/
theorem delete_removes_exactly_selected_witness :
    (handleFileOperation "delete" [1] none true
        { files := [⟨1, "a.txt", 3, "text/plain", 0, "ready"⟩,
                    ⟨2, "b.txt", 4, "text/plain", 1, "ready"⟩],
          selectedFiles := [1], message := "", loading := false
        }).files.Sublist
      [⟨1, "a.txt", 3, "text/plain", 0, "ready"⟩,
       ⟨2, "b.txt", 4, "text/plain", 1, "ready"⟩] ∧
    ((⟨2, "b.txt", 4, "text/plain", 1, "ready"⟩ : FileItem) ∈
        (handleFileOperation "delete" [1] none true
          { files := [⟨1, "a.txt", 3, "text/plain", 0, "ready"⟩,
                      ⟨2, "b.txt", 4, "text/plain", 1, "ready"⟩],
            selectedFiles := [1], message := "", loading := false }).files ↔
      (⟨2, "b.txt", 4, "text/plain", 1, "ready"⟩ : FileItem) ∈
          [⟨1, "a.txt", 3, "text/plain", 0, "ready"⟩,
           ⟨2, "b.txt", 4, "text/plain", 1, "ready"⟩] ∧
        (2 : Nat) ∉ [(1 : Nat)]) :=
  ⟨(delete_removes_exactly_selected _ [1] none).1,
    (delete_removes_exactly_selected _ [1] none).2 _⟩

/-- C8: the copy and move operations leave the files list and the loading
flag untouched for every prompt and confirm outcome; they only set the
message and clear the selection. -/
theorem copy_move_leave_files_unchanged (s : AppState) (fileIds : List Nat)
    (p : Option String) (c : Bool) :
    (handleFileOperation "copy" fileIds p c s).files = s.files ∧
    (handleFileOperation "copy" fileIds p c s).loading = s.loading ∧
    (handleFileOperation "copy" fileIds p c s).selectedFiles = [] ∧
    (handleFileOperation "move" fileIds p c s).files = s.files ∧
    (handleFileOperation "move" fileIds p c s).loading = s.loading ∧
    (handleFileOperation "move" fileIds p c s).selectedFiles = [] := by
  refine ⟨rfl, rfl, rfl, ?_, ?_, ?_⟩ <;>
    · rcases p with _ | folder
      · rfl
      · by_cases h : folder = ""
        · subst h
          rfl
        · unfold handleFileOperation
          dsimp only
          try simp only [if_neg h]
          try rfl

/-- C9: rename with a non-empty prompt result changes only the name field
of the selected records. List length (hence membership and order) is
preserved; at every position the id, size, type, file payload and status
are unchanged, and the name becomes the entered prefix, a dash, the id,
a dot, and the last dot-separated component of the original name for
selected ids, and stays unchanged otherwise. -/
theorem rename_changes_only_name (s : AppState) (fileIds : List Nat)
    (nm : String) (c : Bool) (hne : nm ≠ "") :
    (handleFileOperation "rename" fileIds (some nm) c s).files.length
      = s.files.length ∧
    ∀ i, i < s.files.length →
      ((handleFileOperation "rename" fileIds (some nm) c s).files.getD i
          dummyFileItem).id = (s.files.getD i dummyFileItem).id ∧
      ((handleFileOperation "rename" fileIds (some nm) c s).files.getD i
          dummyFileItem).size = (s.files.getD i dummyFileItem).size ∧
      ((handleFileOperation "rename" fileIds (some nm) c s).files.getD i
          dummyFileItem).type = (s.files.getD i dummyFileItem).type ∧
      ((handleFileOperation "rename" fileIds (some nm) c s).files.getD i
          dummyFileItem).file = (s.files.getD i dummyFileItem).file ∧
      ((handleFileOperation "rename" fileIds (some nm) c s).files.getD i
          dummyFileItem).status = (s.files.getD i dummyFileItem).status ∧
      ((handleFileOperation "rename" fileIds (some nm) c s).files.getD i
          dummyFileItem).name =
        (if (s.files.getD i dummyFileItem).id ∈ fileIds then
          nm ++ "-" ++ toString (s.files.getD i dummyFileItem).id ++ "."
            ++ lastDotComponent (s.files.getD i dummyFileItem).name
        else (s.files.getD i dummyFileItem).name) := by
  rw [handleFileOperation_rename _ _ _ _ hne]
  dsimp only
  refine ⟨List.length_map _ _, fun i hi => ?_⟩
  have hx : s.files[i]? = some s.files[i] := List.getElem?_eq_getElem hi
  simp only [List.getD_eq_getElem?_getD, List.getElem?_map, hx,
    Option.map_some, Option.getD_some]
  by_cases hmem : s.files[i].id ∈ fileIds
  · have hc : fileIds.contains s.files[i].id = true := by
      simpa [List.elem_eq_mem] using hmem
    simp [hc, hmem]
  · have hc : fileIds.contains s.files[i].id = false := by
      simpa [List.elem_eq_mem] using hmem
    simp [hc, hmem]

/-- C9 witness: renaming the single selected record with id 1 and name
a.txt using the prompt result x gives the name x-1.txt. -/
theorem rename_changes_only_name_witness :
    ("x" : String) ≠ "" ∧ (0 : Nat) < 1 ∧
    ((handleFileOperation "rename" [1] (some "x") false
        { files := [⟨1, "a.txt", 3, "text/plain", 0, "ready"⟩],
          selectedFiles := [1], message := "", loading := false }).files.getD 0
        dummyFileItem).name = "x-1.txt" :=
  ⟨by decide, by decide,
    (((rename_changes_only_name
        { files := [⟨1, "a.txt", 3, "text/plain", 0, "ready"⟩],
          selectedFiles := [1], message := "", loading := false }
        [1] "x" false (by decide)).2 0 (by decide)).2.2.2.2.2).trans
      (by decide)⟩

/-- C6: uploading N files appends exactly N records after the existing
ones, in upload order: the length grows by N, the old records form the
unchanged front of the list, and the record at position (old length + i)
carries the name, size and type of the i-th uploaded file, its payload,
id now + i, and status ready. -/
theorem upload_appends_records (ufs : List UploadFile) (now : Nat)
    (s : AppState) :
    (handleFileUpload (some ufs) now s).files.length
      = s.files.length + ufs.length ∧
    (handleFileUpload (some ufs) now s).files.take s.files.length
      = s.files ∧
    ∀ i, i < ufs.length →
      (handleFileUpload (some ufs) now s).files.getD
          (s.files.length + i) dummyFileItem =
        { id := now + i,
          name := (ufs.getD i dummyUploadFile).name,
          size := (ufs.getD i dummyUploadFile).size,
          type := (ufs.getD i dummyUploadFile).type,
          file := (ufs.getD i dummyUploadFile).payload,
          status := "ready" } := by
  have hfe : (handleFileUpload (some ufs) now s).files
      = s.files ++ ufs.mapIdx (fun index (f : UploadFile) =>
        { id := now + index, name := f.name, size := f.size, type := f.type,
          file := f.payload, status := "ready" : FileItem }) := rfl
  refine ⟨?_, ?_, fun i hi => ?_⟩
  · simp [hfe]
  · rw [hfe, List.take_left]
  · have hu : ufs[i]? = some ufs[i] := List.getElem?_eq_getElem hi
    simp only [hfe, List.getD_eq_getElem?_getD,
      List.getElem?_append_right (Nat.le_add_right s.files.length i),
      Nat.add_sub_cancel_left, List.getElem?_mapIdx, hu,
      Option.map_some, Option.getD_some]
    rfl

/-- C6 witness: uploading one file to a state holding one record. -/
theorem upload_appends_records_witness :
    (handleFileUpload
        (some [⟨"b.png", 7, "image/png", 4⟩]) 10
        { files := [⟨1, "a.txt", 3, "text/plain", 0, "ready"⟩],
          selectedFiles := [], message := "", loading := false
        }).files.length = 1 + 1 ∧
    (0 : Nat) < 1 ∧
    (handleFileUpload
        (some [⟨"b.png", 7, "image/png", 4⟩]) 10
        { files := [⟨1, "a.txt", 3, "text/plain", 0, "ready"⟩],
          selectedFiles := [], message := "", loading := false
        }).files.getD (1 + 0) dummyFileItem =
      ⟨10, "b.png", 7, "image/png", 4, "ready"⟩ :=
  ⟨((upload_appends_records [⟨"b.png", 7, "image/png", 4⟩] 10
      { files := [⟨1, "a.txt", 3, "text/plain", 0, "ready"⟩],
        selectedFiles := [], message := "", loading := false }).1).trans
      (by decide),
    by decide,
    (((upload_appends_records [⟨"b.png", 7, "image/png", 4⟩] 10
      { files := [⟨1, "a.txt", 3, "text/plain", 0, "ready"⟩],
        selectedFiles := [], message := "", loading := false }).2.2 0
      (by decide)).trans (by decide))⟩

/-- The ids of the records built by the upload map are the consecutive
range now, now + 1, ..., now + N - 1. -/
theorem map_id_mapIdx_upload (ufs : List UploadFile) (now : Nat) :
    (ufs.mapIdx (fun index (f : UploadFile) =>
      { id := now + index, name := f.name, size := f.size, type := f.type,
        file := f.payload, status := "ready" : FileItem })).map
        (fun f => f.id)
      = List.range' now ufs.length := by
  induction ufs generalizing now with
  | nil => rfl
  | cons u us ih =>
    rw [List.mapIdx_cons, List.map_cons, List.length_cons, List.range'_succ]
    congr 1
    rw [← ih (now + 1)]
    have harg : (fun i (f : UploadFile) =>
        ({ id := now + (i + 1), name := f.name, size := f.size, type := f.type,
           file := f.payload, status := "ready" } : FileItem))
        = (fun index (f : UploadFile) =>
        ({ id := now + 1 + index, name := f.name, size := f.size,
           type := f.type, file := f.payload, status := "ready" }
          : FileItem)) := by
      funext i f
      simp only [FileItem.mk.injEq, and_true, true_and]
      omega
    rw [harg]

/-- One upload call appends the id range now .. now + N - 1 after the
existing ids. -/
theorem idsOf_handleFileUpload (ufs : List UploadFile) (now : Nat)
    (s : AppState) :
    idsOf (handleFileUpload (some ufs) now s)
      = idsOf s ++ List.range' now ufs.length := by
  have hfe : (handleFileUpload (some ufs) now s).files
      = s.files ++ ufs.mapIdx (fun index (f : UploadFile) =>
        { id := now + index, name := f.name, size := f.size, type := f.type,
          file := f.payload, status := "ready" : FileItem }) := rfl
  unfold idsOf
  rw [hfe, List.map_append, map_id_mapIdx_upload]

/-- Every file-management operation maps the id sequence to a sublist of
itself: rename keeps every id in place, delete filters, copy and move
leave the list alone. -/
theorem idsOf_handleFileOperation_sublist (op : String) (fileIds : List Nat)
    (p : Option String) (c : Bool) (s : AppState) :
    (idsOf (handleFileOperation op fileIds p c s)).Sublist (idsOf s) := by
  unfold handleFileOperation idsOf
  dsimp only
  split
  · -- rename
    rcases p with _ | nm
    · exact List.Sublist.refl _
    · dsimp only
      by_cases hne : nm = ""
      · rw [if_pos hne]
      · rw [if_neg hne]
        dsimp only
        rw [List.map_map]
        have hcomp : (fun (f : FileItem) => f.id) ∘ (fun (f : FileItem) =>
            if fileIds.contains f.id then
              { f with
                name := nm ++ "-" ++ toString f.id ++ "."
                  ++ lastDotComponent f.name }
            else f) = fun f => f.id := by
          funext f
          by_cases hm : f.id ∈ fileIds <;> simp [hm]
        rw [hcomp]
  · -- delete
    cases c
    · exact List.Sublist.refl _
    · exact (List.filter_sublist _).map _
  · -- copy
    exact List.Sublist.refl _
  · -- move
    rcases p with _ | folder
    · exact List.Sublist.refl _
    · dsimp only
      by_cases hne : folder = "" <;> simp [hne]
  · -- unknown operation
    exact List.Sublist.refl _

/-- One fresh step preserves distinctness of the ids in the list. -/
theorem nodup_idsOf_step (s : AppState) (e : Event)
    (hn : (idsOf s).Nodup) (hf : eventFresh s e = true) :
    (idsOf (step s e)).Nodup := by
  cases e with
  | upload u now =>
    cases u with
    | none => exact hn
    | some ufs =>
      have hstep : step s (.upload (some ufs) now)
          = handleFileUpload (some ufs) now s := rfl
      rw [hstep, idsOf_handleFileUpload]
      simp only [eventFresh, List.all_eq_true, decide_eq_true_eq] at hf
      refine List.Nodup.append hn (List.nodup_range' _ _) ?_
      intro a ha ha'
      rw [List.mem_range'_1] at ha'
      obtain ⟨f, hfm, rfl⟩ := List.mem_map.mp ha
      exact absurd ha'.1 (Nat.not_le.mpr (hf f hfm))
  | fileOp op ids p c =>
    exact (idsOf_handleFileOperation_sublist op ids p c s).nodup hn

/-- A fresh event sequence keeps the ids distinct all along. -/
theorem trace_nodup_aux (es : List Event) (s : AppState)
    (hn : (idsOf s).Nodup) (hf : traceFresh s es = true) :
    (idsOf (es.foldl step s)).Nodup := by
  induction es generalizing s with
  | nil => exact hn
  | cons e es ih =>
    rw [List.foldl_cons]
    simp only [traceFresh, Bool.and_eq_true] at hf
    exact ih (step s e) (nodup_idsOf_step s e hn hf.1) hf.2

/-- C3 counterexample: two uploads observing the same Date.now() value 5
produce two records that both carry id 5, so identifier uniqueness fails
after this sequence of upload operations. -/
theorem duplicate_ids_after_same_timestamp_uploads :
    idsOf (runTrace
        [ .upload (some [⟨"a.txt", 1, "text/plain", 0⟩]) 5,
          .upload (some [⟨"b.txt", 2, "text/plain", 1⟩]) 5 ]) = [5, 5] ∧
    ¬ (idsOf (runTrace
        [ .upload (some [⟨"a.txt", 1, "text/plain", 0⟩]) 5,
          .upload (some [⟨"b.txt", 2, "text/plain", 1⟩]) 5 ])).Nodup := by
  decide

/-- C3 (amended): after any sequence of upload, rename, copy, move and
delete operations from the empty initial state in which every upload
observes a Date.now() value strictly greater than every id already in the
list, no two records in the files list have the same id. -/
theorem trace_fresh_ids_nodup (events : List Event)
    (h : traceFresh initialState events = true) :
    (idsOf (runTrace events)).Nodup :=
  trace_nodup_aux events initialState (by decide) h

/-- C3 witness: a fresh three-event trace mixing uploads and a rename. -/
theorem trace_fresh_ids_nodup_witness :
    traceFresh initialState
      [ .upload (some [⟨"a.txt", 1, "text/plain", 0⟩,
                       ⟨"b.txt", 2, "text/plain", 1⟩]) 1,
        .fileOp "rename" [1] (some "x") false,
        .upload (some [⟨"c.png", 3, "image/png", 2⟩]) 10 ] = true ∧
    (idsOf (runTrace
      [ .upload (some [⟨"a.txt", 1, "text/plain", 0⟩,
                       ⟨"b.txt", 2, "text/plain", 1⟩]) 1,
        .fileOp "rename" [1] (some "x") false,
        .upload (some [⟨"c.png", 3, "image/png", 2⟩]) 10 ])).Nodup :=
  ⟨by decide,
    trace_fresh_ids_nodup
      [ .upload (some [⟨"a.txt", 1, "text/plain", 0⟩,
                       ⟨"b.txt", 2, "text/plain", 1⟩]) 1,
        .fileOp "rename" [1] (some "x") false,
        .upload (some [⟨"c.png", 3, "image/png", 2⟩]) 10 ] (by decide)⟩

/-- C5: for an image with positive dimensions whose larger dimension
exceeds 1920, the onload resize multiplies both dimensions by one common
positive ratio and the resulting longest side is at most 1920. -/
theorem compress_resize_bounds (w h : ℚ) (hw : 0 < w) (hh : 0 < h)
    (hbig : 1920 < max w h) :
    (∃ r : ℚ, 0 < r ∧ (computeNewSize w h).1 = w * r ∧
      (computeNewSize w h).2 = h * r) ∧
    max (computeNewSize w h).1 (computeNewSize w h).2 ≤ 1920 := by
  have hcond : w > 1920 ∨ h > 1920 := by
    rcases lt_max_iff.mp hbig with hw' | hh'
    · exact Or.inl hw'
    · exact Or.inr hh'
  have hred : computeNewSize w h
      = (w * min (1920 / w) (1920 / h), h * min (1920 / w) (1920 / h)) := by
    simp only [computeNewSize]
    rw [if_pos hcond]
  rw [hred]
  have hrpos : 0 < min ((1920 : ℚ) / w) (1920 / h) :=
    lt_min (div_pos (by norm_num) hw) (div_pos (by norm_num) hh)
  refine ⟨⟨min ((1920 : ℚ) / w) (1920 / h), hrpos, rfl, rfl⟩, ?_⟩
  have hwle : w * min ((1920 : ℚ) / w) (1920 / h) ≤ 1920 := by
    calc w * min ((1920 : ℚ) / w) (1920 / h) ≤ w * (1920 / w) :=
          mul_le_mul_of_nonneg_left (min_le_left _ _) hw.le
      _ = 1920 := by field_simp
  have hhle : h * min ((1920 : ℚ) / w) (1920 / h) ≤ 1920 := by
    calc h * min ((1920 : ℚ) / w) (1920 / h) ≤ h * (1920 / h) :=
          mul_le_mul_of_nonneg_left (min_le_right _ _) hh.le
      _ = 1920 := by field_simp
  exact max_le hwle hhle

/-- C5 witness: a 3840 by 1080 image is scaled to fit within 1920. -/
theorem compress_resize_bounds_witness :
    (0 : ℚ) < 3840 ∧ (0 : ℚ) < 1080 ∧ 1920 < max (3840 : ℚ) 1080 ∧
    ((∃ r : ℚ, 0 < r ∧ (computeNewSize 3840 1080).1 = 3840 * r ∧
      (computeNewSize 3840 1080).2 = 1080 * r) ∧
    max (computeNewSize 3840 1080).1 (computeNewSize 3840 1080).2 ≤ 1920) :=
  ⟨by decide, by decide, by decide,
    compress_resize_bounds 3840 1080 (by decide) (by decide) (by decide)⟩

/-- C7: the document-conversion handler and the compression loop are total
on every outcome of their awaited effects, and every caught exception
surfaces as the message built from the exception text, with loading reset:
a rejected fetch gives 转换失败 plus the exception message, a rejected
blob() likewise, a response with ok false raises the internal 转换失败
error which its own catch re-labels, and an exception in the compression
loop gives 压缩失败 plus the exception message. The message state is the
dismissible status banner of the component. -/
theorem operation_errors_surface_as_messages (s : AppState) (e eb : String)
    (br : Except String Unit) (imgs : List FileItem)
    (blobOf : FileItem → Option Nat) :
    (convertDocument (.error e) s).message = "转换失败: " ++ e ∧
    (convertDocument (.error e) s).loading = false ∧
    (convertDocument (.ok ⟨true, .error eb⟩) s).message = "转换失败: " ++ eb ∧
    (convertDocument (.ok ⟨true, .error eb⟩) s).loading = false ∧
    (convertDocument (.ok ⟨false, br⟩) s).message
      = "转换失败: " ++ "转换失败" ∧
    (convertDocument (.ok ⟨false, br⟩) s).loading = false ∧
    (compressImages imgs blobOf (some e) s).message = "压缩失败: " ++ e ∧
    (compressImages imgs blobOf (some e) s).loading = false :=
  ⟨rfl, rfl, rfl, rfl, rfl, rfl, rfl, rfl⟩

/-- The compression totals ignore every entry that is not image-typed:
folding over a list equals folding over its image-typed sublist. -/
theorem compressTotals_eq_filter (images : List FileItem)
    (blobOf : FileItem → Option Nat) :
    compressTotals images blobOf
      = compressTotals (images.filter (fun f => typeIsImage f.type))
          blobOf := by
  unfold compressTotals
  suffices haux : ∀ (l : List FileItem) (acc : Nat × Nat × List String),
      l.foldl (compressAccum blobOf) acc
        = (l.filter (fun f => typeIsImage f.type)).foldl
            (compressAccum blobOf) acc from haux images (0, 0, [])
  intro l
  induction l with
  | nil => intro acc; rfl
  | cons x xs ih =>
    intro acc
    cases hx : typeIsImage x.type with
    | false =>
      have hskip : compressAccum blobOf acc x = acc := by
        simp [compressAccum, hx]
      simp only [List.filter_cons, hx, List.foldl_cons, hskip]
      exact ih acc
    | true =>
      simp only [List.filter_cons, hx, List.foldl_cons]
      exact ih _

/-- C10: entries whose MIME type does not start with image/ contribute to
neither total and trigger no download: the totals over any list equal the
totals over its image-typed entries only, and when no entry is image-typed
both totals are zero and no download is triggered. -/
theorem compress_skips_non_images (images : List FileItem)
    (blobOf : FileItem → Option Nat) :
    compressTotals images blobOf
      = compressTotals (images.filter (fun f => typeIsImage f.type))
          blobOf ∧
    (images.all (fun f => !(typeIsImage f.type)) = true →
      compressTotals images blobOf = (0, 0, [])) := by
  refine ⟨compressTotals_eq_filter images blobOf, fun hall => ?_⟩
  rw [compressTotals_eq_filter images blobOf]
  have hnil : images.filter (fun f => typeIsImage f.type) = [] := by
    rw [List.filter_eq_nil_iff]
    intro a ha
    have := List.all_eq_true.mp hall a ha
    simpa using this
  rw [hnil]
  rfl

/-- C10 witness: a list holding one text file yields zero totals and no
downloads. -/
theorem compress_skips_non_images_witness :
    ([⟨1, "a.txt", 5, "text/plain", 0, "ready"⟩] : List FileItem).all
        (fun f => !(typeIsImage f.type)) = true ∧
    compressTotals [⟨1, "a.txt", 5, "text/plain", 0, "ready"⟩]
        (fun _ => none) = (0, 0, []) :=
  ⟨by decide,
    (compress_skips_non_images [⟨1, "a.txt", 5, "text/plain", 0, "ready"⟩]
      (fun _ => none)).2 (by decide)⟩
